import Mathlib

/-!
Verification of the `eigen_utils` rigid-body state module
(`src/eigen_rigidbody.hpp`).

The development shallowly embeds the C++ class `RigidBodyState` and the
helper functions it uses.  Double-precision arithmetic is modelled over the
real numbers; the NaN/infinity classification needed by `hasNan` is
modelled by a dedicated scalar type `DReal`.  External library calls
(Eigen quaternion/rotation operations) are embedded by their documented
semantics.  Helper functions of this repository whose bodies are not in
the provided sources (`subtractQuats`, `quaternionToBotDouble`,
`botDoubleToQuaternion`) are modelled from the specification, as marked on
their doc comments.
-/

namespace EigenUtils

/-- Classification of an IEEE double value as used by the C `isnan`
predicate: a finite real, positive infinity, negative infinity, or NaN.
Only the classification matters to `hasNan`, so arithmetic is not defined
on this type. -/
inductive DReal where
  | fin (x : ℝ)
  | inf
  | ninf
  | nan

/-- The C `isnan` classification predicate: true exactly on NaN. -/
def DReal.isnan : DReal → Bool
  | .nan => true
  | _ => false

/-- A rigid body state as seen by `hasNan`: the 15-element state vector
together with the quaternion, each entry classified as a `DReal`.  The
quaternion field is carried so that it can be proved that `hasNan` never
depends on it. -/
structure RigidBodyStateD where
  quatD : Fin 4 → DReal
  vecD : Fin 15 → DReal

/-- Embedding of `RigidBodyState::hasNan` (lines 230-237): loop over the
rows of `vec`, returning true as soon as an entry is NaN, false after the
last row otherwise.  The early-exit loop is `List.any` over the indices in
order.  The quaternion is not read and the state is not modified (the
function is a pure predicate of the state). -/
def hasNan (s : RigidBodyStateD) : Bool :=
  (List.finRange 15).any fun i => (s.vecD i).isnan

/-- The state built by the default constructor `RigidBodyState(int)`
(lines 50-56) as seen by the `DReal` classification: every vector entry is
the finite value 0 and the quaternion is the finite identity
(1, 0, 0, 0). -/
def zeroInitD : RigidBodyStateD :=
  { quatD := fun i => if i.val = 0 then .fin 1 else .fin 0
    vecD := fun _ => .fin 0 }

noncomputable section

/-- The C library function `atan2(y, x)`: the angle of the point (x, y),
in (-pi, pi].  (Signed zeros do not exist over the reals, so atan2(0, 0)
is 0.) -/
def atan2 (y x : ℝ) : ℝ :=
  if 0 < x then Real.arctan (y / x)
  else if x < 0 then
    (if 0 ≤ y then Real.arctan (y / x) + Real.pi
     else Real.arctan (y / x) - Real.pi)
  else
    (if 0 < y then Real.pi / 2
     else if y < 0 then -(Real.pi / 2)
     else 0)

/-- Embedding of Eigen `Quaterniond(AngleAxisd(angle, axis))`: the
quaternion with scalar part cos(angle/2) and vector part
sin(angle/2) * axis (the axis is expected to be a unit vector). -/
def angleAxisToQuat (angle : ℝ) (axis : Fin 3 → ℝ) : Quaternion ℝ :=
  ⟨Real.cos (angle / 2), Real.sin (angle / 2) * axis 0,
   Real.sin (angle / 2) * axis 1, Real.sin (angle / 2) * axis 2⟩

/-- Modelled from the spec: the body of `quaternionToBotDouble` is not
under `src/` (the header only declares it).  Per the specification it is
the lossless conversion of a quaternion to the fixed-order 4-element array
representation. -/
def quaternionToBotDouble (q : Quaternion ℝ) : Fin 4 → ℝ :=
  fun i =>
    if i.val = 0 then q.re
    else if i.val = 1 then q.imI
    else if i.val = 2 then q.imJ
    else q.imK

/-- Modelled from the spec: the body of `botDoubleToQuaternion` is not
under `src/` (the header only declares it).  Per the specification it is
the lossless inverse of `quaternionToBotDouble`, reading the 4-element
array back into a quaternion in the same component order. -/
def botDoubleToQuaternion (arr : Fin 4 → ℝ) : Quaternion ℝ :=
  ⟨arr 0, arr 1, arr 2, arr 3⟩

/-- Modelled from the spec: the body of `subtractQuats` is not under
`src/` (the header only declares it, lines 17-21).  Per the specification
it returns the exponential coordinates (angle times unit axis) of the
relative rotation `quat2.inverse() * quat1`, with
angle = 2 * atan2(norm of vector part, scalar part) and
axis = vector part / norm, and the zero vector when the vector part
vanishes. -/
def subtractQuats (quat1 quat2 : Quaternion ℝ) : Fin 3 → ℝ :=
  let r := quat2⁻¹ * quat1
  let nv := Real.sqrt (r.imI ^ 2 + r.imJ ^ 2 + r.imK ^ 2)
  if nv = 0 then fun _ => 0
  else fun i =>
    (2 * atan2 nv r.re / nv) * (if i.val = 0 then r.imI
                                else if i.val = 1 then r.imJ
                                else r.imK)

/-- Embedding of Eigen `Quaterniond::toRotationMatrix()`: the standard
rotation matrix of a (unit) quaternion. -/
def toRotationMatrix (q : Quaternion ℝ) : Fin 3 → Fin 3 → ℝ :=
  fun r c =>
    if r.val = 0 then
      if c.val = 0 then 1 - 2 * (q.imJ ^ 2 + q.imK ^ 2)
      else if c.val = 1 then 2 * (q.imI * q.imJ - q.imK * q.re)
      else 2 * (q.imI * q.imK + q.imJ * q.re)
    else if r.val = 1 then
      if c.val = 0 then 2 * (q.imI * q.imJ + q.imK * q.re)
      else if c.val = 1 then 1 - 2 * (q.imI ^ 2 + q.imK ^ 2)
      else 2 * (q.imJ * q.imK - q.imI * q.re)
    else
      if c.val = 0 then 2 * (q.imI * q.imK - q.imJ * q.re)
      else if c.val = 1 then 2 * (q.imJ * q.imK + q.imI * q.re)
      else 1 - 2 * (q.imI ^ 2 + q.imJ ^ 2)

/-- First output of Eigen `MatrixBase::eulerAngles(2, 1, 0)` (the angle
about axis 2, i.e. Z): atan2 of the (1,0) and (0,0) entries, shifted by
pi into [0, pi] when negative. -/
def ea0 (R : Fin 3 → Fin 3 → ℝ) : ℝ :=
  let r0 := atan2 (R 1 0) (R 0 0)
  if r0 < 0 then r0 + Real.pi else r0

/-- Second output of Eigen `MatrixBase::eulerAngles(2, 1, 0)` (the angle
about axis 1, i.e. Y). -/
def ea1 (R : Fin 3 → Fin 3 → ℝ) : ℝ :=
  let r0 := atan2 (R 1 0) (R 0 0)
  let c2 := Real.sqrt ((R 2 2) ^ 2 + (R 2 1) ^ 2)
  if r0 < 0 then atan2 (-(R 2 0)) (-c2) else atan2 (-(R 2 0)) c2

/-- Third output of Eigen `MatrixBase::eulerAngles(2, 1, 0)` (the angle
about axis 0, i.e. X), computed from the already-adjusted first angle. -/
def ea2 (R : Fin 3 → Fin 3 → ℝ) : ℝ :=
  atan2 (Real.sin (ea0 R) * R 0 2 - Real.cos (ea0 R) * R 1 2)
        (Real.cos (ea0 R) * R 1 1 - Real.sin (ea0 R) * R 0 1)

/-- Embedding of Eigen `MatrixBase::eulerAngles(2, 1, 0)`: the triple of
angles (about Z, about Y, about X) whose intrinsic Z-Y-X composition is
the given rotation matrix; component 0 is the Z angle. -/
def eulerAngles210 (R : Fin 3 → Fin 3 → ℝ) : Fin 3 → ℝ :=
  fun i => if i.val = 0 then ea0 R else if i.val = 1 then ea1 R else ea2 R

/-- Embedding of the class `RigidBodyState` (lines 37-239) at the basic
layout: the state vector has `basic_num_states = 15` rows (the dimension
every constructor taking a vector asserts), the orientation quaternion is
held outside the vector, and `utime` is the integer timestamp.  The C++
methods mutate the receiver in place; the embedding is functional, each
operation returning the updated state, so the argument state is never
mutated by construction. -/
@[ext]
structure RigidBodyState where
  quat : Quaternion ℝ
  vec : Fin 15 → ℝ
  utime : ℤ

namespace RigidBodyState

/-- Layout constant `angular_velocity_ind` (line 39). -/
def angular_velocity_ind : ℕ := 0

/-- Layout constant `velocity_ind` (line 40). -/
def velocity_ind : ℕ := 3

/-- Layout constant `chi_ind` (line 41). -/
def chi_ind : ℕ := 6

/-- Layout constant `position_ind` (line 42). -/
def position_ind : ℕ := 9

/-- Layout constant `acceleration_ind` (line 43). -/
def acceleration_ind : ℕ := 12

/-- Layout constant `basic_num_states` (line 44). -/
def basic_num_states : ℕ := 15

/-- Accessor `angularVelocity()`: the 3-element block at offset 0. -/
def angularVelocity (s : RigidBodyState) (i : Fin 3) : ℝ :=
  s.vec ⟨i.val, by omega⟩

/-- Accessor `velocity()`: the 3-element block at offset 3. -/
def velocity (s : RigidBodyState) (i : Fin 3) : ℝ :=
  s.vec ⟨3 + i.val, by omega⟩

/-- Accessor `chi()`: the 3-element block at offset 6 (the attitude
perturbation in exponential coordinates). -/
def chi (s : RigidBodyState) (i : Fin 3) : ℝ :=
  s.vec ⟨6 + i.val, by omega⟩

/-- Accessor `position()`: the 3-element block at offset 9. -/
def position (s : RigidBodyState) (i : Fin 3) : ℝ :=
  s.vec ⟨9 + i.val, by omega⟩

/-- Accessor `acceleration()`: the 3-element block at offset 12. -/
def acceleration (s : RigidBodyState) (i : Fin 3) : ℝ :=
  s.vec ⟨12 + i.val, by omega⟩

/-- The Euclidean norm of the chi block, `this->chi().norm()`
(line 188). -/
def chiNorm (s : RigidBodyState) : ℝ :=
  Real.sqrt ((s.chi 0) ^ 2 + (s.chi 1) ^ 2 + (s.chi 2) ^ 2)

/-- The state vector with the chi block (offsets 6-8) overwritten by
zeros, `this->chi() = Eigen::Vector3d::Zero()` (line 193). -/
def zeroChiVec (v : Fin 15 → ℝ) : Fin 15 → ℝ :=
  fun i => if 6 ≤ i.val ∧ i.val ≤ 8 then 0 else v i

/-- Embedding of `chiToQuat()` (lines 186-195): if the chi norm exceeds
the tolerance 0.000001, right-multiply onto `quat` the quaternion of the
rotation by angle equal to the chi norm about the normalized chi axis and
zero the chi block; otherwise leave the state unchanged. -/
def chiToQuat (s : RigidBodyState) : RigidBodyState :=
  if s.chiNorm > 0.000001 then
    { quat := s.quat * angleAxisToQuat s.chiNorm (fun i => s.chi i / s.chiNorm)
      vec := zeroChiVec s.vec
      utime := s.utime }
  else s

/-- Embedding of `quatToChi()` (lines 197-201): store
`subtractQuats(quat, Identity)` into the chi block and reset `quat` to the
identity. -/
def quatToChi (s : RigidBodyState) : RigidBodyState :=
  { quat := 1
    vec := fun i =>
      if h : 6 ≤ i.val ∧ i.val ≤ 8 then
        subtractQuats s.quat 1 ⟨i.val - 6, by omega⟩
      else s.vec i
    utime := s.utime }

/-- The receiver after the statement `this->vec += state_to_add.vec` of
`addState` (line 208): the element-wise sum of the state vectors, with
the receiver's quaternion and timestamp unchanged. -/
def sumState (s state_to_add : RigidBodyState) : RigidBodyState :=
  { quat := s.quat, vec := fun i => s.vec i + state_to_add.vec i
    utime := s.utime }

/-- Embedding of `addState(state_to_add)` (lines 206-211): element-wise
vector sum, then `chiToQuat()`, then postmultiplication of the orientation
by the added orientation. -/
def addState (s state_to_add : RigidBodyState) : RigidBodyState :=
  let s2 := chiToQuat (sumState s state_to_add)
  { quat := s2.quat * state_to_add.quat, vec := s2.vec, utime := s2.utime }

/-- Embedding of `subtractState(state_to_subtract)` (lines 216-220):
element-wise vector difference, then premultiplication of the orientation
by the inverse of the subtracted orientation.  No chi folding is
performed. -/
def subtractState (s state_to_subtract : RigidBodyState) : RigidBodyState :=
  { quat := state_to_subtract.quat⁻¹ * s.quat
    vec := fun i => s.vec i - state_to_subtract.vec i
    utime := s.utime }

/-- Embedding of `getEulerAngles()` (lines 96-100):
`quat.toRotationMatrix().eulerAngles(2, 1, 0)`. -/
def getEulerAngles (s : RigidBodyState) : Fin 3 → ℝ :=
  eulerAngles210 (toRotationMatrix s.quat)

/-- Embedding of the default constructor `RigidBodyState(int)`
(lines 50-56) at the basic dimension: zero vector, identity quaternion,
zero timestamp. -/
def mkDefault : RigidBodyState :=
  { quat := 1, vec := fun _ => 0, utime := 0 }

/-- Embedding of the constructor `RigidBodyState(const VectorXd &)`
(lines 58-65): copy the vector, set the identity quaternion, fold the chi
block via `chiToQuat()`, zero timestamp. -/
def fromVec (arg_vec : Fin 15 → ℝ) : RigidBodyState :=
  chiToQuat { quat := 1, vec := arg_vec, utime := 0 }

/-- Embedding of the constructor
`RigidBodyState(const VectorXd &, const Quaterniond &)` (lines 67-72):
copy both, zero timestamp. -/
def fromVecQuat (arg_vec : Fin 15 → ℝ) (arg_quat : Quaternion ℝ) :
    RigidBodyState :=
  { quat := arg_quat, vec := arg_vec, utime := 0 }

end RigidBodyState

/-- The external record `rigid_body_pose_t`: rotation rate, velocity,
position and acceleration triples, a 4-element orientation array, and the
integer timestamp. -/
structure RigidBodyPoseT where
  rotation_rate : Fin 3 → ℝ
  vel : Fin 3 → ℝ
  pos : Fin 3 → ℝ
  accel : Fin 3 → ℝ
  orientation : Fin 4 → ℝ
  utime : ℤ

namespace RigidBodyState

/-- Embedding of the constructor
`RigidBodyState(const rigid_body_pose_t *)` (lines 74-91): copy velocity,
angular velocity, position and acceleration into their blocks, zero the
chi block, convert the orientation array to the quaternion, copy the
timestamp. -/
def fromPose (pose : RigidBodyPoseT) : RigidBodyState :=
  { quat := botDoubleToQuaternion pose.orientation
    vec := fun i =>
      if h0 : i.val < 3 then pose.rotation_rate ⟨i.val, h0⟩
      else if h1 : i.val < 6 then pose.vel ⟨i.val - 3, by omega⟩
      else if i.val < 9 then 0
      else if h3 : i.val < 12 then pose.pos ⟨i.val - 9, by omega⟩
      else pose.accel ⟨i.val - 12, by omega⟩
    utime := pose.utime }

/-- Embedding of `getPose(rigid_body_pose_t *)` (lines 112-120): copy the
four vector blocks and the timestamp out, converting the quaternion to
the orientation array.  The receiver is not modified (the C++ method
writes only through the pose pointer). -/
def getPose (s : RigidBodyState) : RigidBodyPoseT :=
  { rotation_rate := s.angularVelocity
    vel := s.velocity
    pos := s.position
    accel := s.acceleration
    orientation := quaternionToBotDouble s.quat
    utime := s.utime }

end RigidBodyState

end

/-! Helper lemmas shared by the claim theorems. -/

/-- A classified double satisfies `isnan` exactly when it is NaN. -/
theorem DReal.isnan_eq_true_iff (d : DReal) : d.isnan = true ↔ d = DReal.nan := by
  cases d <;> simp [DReal.isnan]

/-- `hasNan` is true exactly when some state-vector entry is NaN. -/
theorem hasNan_eq_true_iff (s : RigidBodyStateD) :
    hasNan s = true ↔ ∃ i, s.vecD i = DReal.nan := by
  rw [hasNan, List.any_eq_true]
  constructor
  · rintro ⟨i, -, hi⟩
    exact ⟨i, (DReal.isnan_eq_true_iff _).mp hi⟩
  · rintro ⟨i, hi⟩
    exact ⟨i, List.mem_finRange i, (DReal.isnan_eq_true_iff _).mpr hi⟩

namespace RigidBodyState

/-- `chiToQuat` never changes the timestamp. -/
theorem chiToQuat_utime (s : RigidBodyState) : s.chiToQuat.utime = s.utime := by
  rw [chiToQuat]; split <;> rfl

/-- When the chi norm is within tolerance, `chiToQuat` is the identity. -/
theorem chiToQuat_of_chiNorm_le (s : RigidBodyState)
    (h : s.chiNorm ≤ 0.000001) : s.chiToQuat = s := by
  rw [chiToQuat, if_neg (not_lt.mpr h)]

/-- A state with a zero chi block is left unchanged by `chiToQuat`. -/
theorem chiToQuat_of_zero_chi (s : RigidBodyState)
    (h : ∀ i, s.chi i = 0) : s.chiToQuat = s := by
  have hn : s.chiNorm = 0 := by
    rw [chiNorm, h 0, h 1, h 2]
    simp
  exact chiToQuat_of_chiNorm_le s (by rw [hn]; norm_num)

/-- When the chi norm is above tolerance, `chiToQuat` zeroes the chi
block. -/
theorem chiToQuat_chi_fold (s : RigidBodyState)
    (h : s.chiNorm > 0.000001) (i : Fin 3) : s.chiToQuat.chi i = 0 := by
  rw [chiToQuat, if_pos h]
  show zeroChiVec s.vec ⟨6 + i.val, by omega⟩ = 0
  have hin : 6 ≤ 6 + i.val ∧ 6 + i.val ≤ 8 := by omega
  rw [zeroChiVec, if_pos hin]

/-- `chiToQuat` leaves the vector entries outside the chi block
unchanged. -/
theorem chiToQuat_vec_outside (s : RigidBodyState) (i : Fin 15)
    (h : i.val < 6 ∨ 8 < i.val) : s.chiToQuat.vec i = s.vec i := by
  rw [chiToQuat]
  split
  · show zeroChiVec s.vec i = s.vec i
    rw [zeroChiVec, if_neg (by omega)]
  · rfl

end RigidBodyState

open RigidBodyState

noncomputable section

/-- C1: `addState(t)` applied to `s` sums the state vectors element-wise
(chi slots included), then applies `chiToQuat` to the receiver (folding
the just-added chi), then postmultiplies the orientation by the added
orientation; the timestamp is untouched.  The embedding is functional, so
the argument `t` is not mutated by construction. -/
theorem addState_spec (s t : RigidBodyState) :
    (sumState s t).vec = (fun i => s.vec i + t.vec i)
    ∧ (s.addState t).vec = (chiToQuat (sumState s t)).vec
    ∧ (s.addState t).quat = (chiToQuat (sumState s t)).quat * t.quat
    ∧ (s.addState t).utime = s.utime :=
  ⟨rfl, rfl, rfl, chiToQuat_utime _⟩

/-- C2: `subtractState(t)` applied to `s` subtracts the state vectors
element-wise (the chi slots are differenced like every other entry, with
no chi folding), premultiplies the orientation by the inverse of the
subtracted orientation, and leaves the timestamp unchanged.  The
embedding is functional, so the argument `t` is not mutated by
construction. -/
theorem subtractState_spec (s t : RigidBodyState) :
    (s.subtractState t).vec = (fun i => s.vec i - t.vec i)
    ∧ (∀ i : Fin 3, (s.subtractState t).chi i = s.chi i - t.chi i)
    ∧ (s.subtractState t).quat = t.quat⁻¹ * s.quat
    ∧ (s.subtractState t).utime = s.utime :=
  ⟨rfl, fun _ => rfl, rfl, rfl⟩

/-- C8: `hasNan()` is true exactly when one of the 15 state-vector
entries is NaN, it depends only on the state vector (never on the
quaternion components), and the freshly zero-initialized state yields
false.  The embedding is functional, so the query mutates nothing by
construction. -/
theorem hasNan_spec :
    (∀ s : RigidBodyStateD, hasNan s = true ↔ ∃ i, s.vecD i = DReal.nan)
    ∧ (∀ s t : RigidBodyStateD, s.vecD = t.vecD → hasNan s = hasNan t)
    ∧ hasNan zeroInitD = false := by
  refine ⟨hasNan_eq_true_iff, ?_, rfl⟩
  intro s t h
  rw [hasNan, hasNan, h]

/-- Two states with the same (NaN-containing) state vector but different
quaternions, witnessing that `hasNan` ignores the quaternion. -/
def stateDA : RigidBodyStateD :=
  { quatD := fun _ => .fin 0, vecD := fun _ => .nan }

/-- Companion state to `stateDA` with a different quaternion. -/
def stateDB : RigidBodyStateD :=
  { quatD := fun _ => .inf, vecD := fun _ => .nan }

/-- C8 witness: the quaternion-independence part of `hasNan_spec` applied
to two concrete states that differ only in the quaternion. -/
theorem hasNan_spec_witness : hasNan stateDA = hasNan stateDB :=
  hasNan_spec.2.1 stateDA stateDB rfl

/-- C10: a state whose vector contains an infinity but no NaN passes
`hasNan()` undetected: the query returns false whenever no entry is NaN,
regardless of infinities. -/
theorem hasNan_ignores_inf (s : RigidBodyStateD)
    (_hinf : ∃ i, s.vecD i = DReal.inf ∨ s.vecD i = DReal.ninf)
    (hnan : ∀ i, s.vecD i ≠ DReal.nan) :
    hasNan s = false := by
  cases hb : hasNan s with
  | false => rfl
  | true =>
    obtain ⟨i, hi⟩ := (hasNan_eq_true_iff s).mp hb
    exact absurd hi (hnan i)

/-- A state whose vector entries are all positive infinity. -/
def stateDInf : RigidBodyStateD :=
  { quatD := fun i => if i.val = 0 then .fin 1 else .fin 0
    vecD := fun _ => .inf }

/-- C10 witness: `hasNan_ignores_inf` applied to the all-infinity
state. -/
theorem hasNan_ignores_inf_witness : hasNan stateDInf = false :=
  hasNan_ignores_inf stateDInf ⟨0, Or.inl rfl⟩
    (fun _ h => DReal.noConfusion h)

/-- When the relative quaternion is plus or minus one (no vector part),
`subtractQuats` yields the zero vector. -/
theorem subtractQuats_eq_zero_of_rel_pm_one (q1 q2 : Quaternion ℝ)
    (h : q2⁻¹ * q1 = 1 ∨ q2⁻¹ * q1 = -1) (i : Fin 3) :
    subtractQuats q1 q2 i = 0 := by
  have hI : (q2⁻¹ * q1).imI = 0 := by rcases h with h | h <;> rw [h] <;> simp
  have hJ : (q2⁻¹ * q1).imJ = 0 := by rcases h with h | h <;> rw [h] <;> simp
  have hK : (q2⁻¹ * q1).imK = 0 := by rcases h with h | h <;> rw [h] <;> simp
  have hnv : Real.sqrt ((q2⁻¹ * q1).imI ^ 2 + (q2⁻¹ * q1).imJ ^ 2 +
      (q2⁻¹ * q1).imK ^ 2) = 0 := by
    rw [hI, hJ, hK]
    simp
  show (let r := q2⁻¹ * q1
        let nv := Real.sqrt (r.imI ^ 2 + r.imJ ^ 2 + r.imK ^ 2)
        if nv = 0 then fun _ => (0 : ℝ)
        else fun i =>
          (2 * atan2 nv r.re / nv) * (if i.val = 0 then r.imI
                                      else if i.val = 1 then r.imJ
                                      else r.imK)) i = 0
  rw [if_pos hnv]

/-- C9: `subtractQuats` (modelled from the spec as the exponential
coordinates of the relative rotation `q2.inverse() * q1`) returns the
zero vector on equal arguments, and also on the antipodal pairs (q, -q)
and (-q, q), which represent the same rotation: q and -q are mapped to
the same (zero) result against q. -/
theorem subtractQuats_spec (q : Quaternion ℝ)
    (h : q.re ^ 2 + q.imI ^ 2 + q.imJ ^ 2 + q.imK ^ 2 = 1) :
    (∀ i, subtractQuats q q i = 0)
    ∧ (∀ i, subtractQuats q (-q) i = 0)
    ∧ (∀ i, subtractQuats (-q) q i = 0) := by
  have hq0 : q ≠ 0 := by
    intro h0
    rw [h0] at h
    simp at h
  have h1 : q⁻¹ * q = 1 := inv_mul_cancel₀ hq0
  have h3 : (-q)⁻¹ * q = -1 := by rw [inv_neg, neg_mul, h1]
  have h2 : q⁻¹ * (-q) = -1 := by rw [mul_neg, h1]
  exact ⟨subtractQuats_eq_zero_of_rel_pm_one q q (Or.inl h1),
         subtractQuats_eq_zero_of_rel_pm_one q (-q) (Or.inr h3),
         subtractQuats_eq_zero_of_rel_pm_one (-q) q (Or.inr h2)⟩

/-- C9 witness: `subtractQuats_spec` at the identity quaternion. -/
theorem subtractQuats_spec_witness :
    ((1 : Quaternion ℝ).re ^ 2 + (1 : Quaternion ℝ).imI ^ 2 +
        (1 : Quaternion ℝ).imJ ^ 2 + (1 : Quaternion ℝ).imK ^ 2 = 1)
    ∧ subtractQuats 1 1 0 = 0 :=
  ⟨by simp, (subtractQuats_spec 1 (by simp)).1 0⟩

/-- C3: `chiToQuat` with chi norm above the 0.000001 tolerance
postmultiplies onto the orientation the quaternion of the rotation by
angle equal to the chi norm about the normalized chi axis, zeroes the chi
block (leaving the rest of the vector and the timestamp unchanged); with
chi norm at most the tolerance it leaves the state unchanged; and it is
idempotent. -/
theorem chiToQuat_spec (s : RigidBodyState) :
    (s.chiNorm > 0.000001 →
      s.chiToQuat.quat =
          s.quat * angleAxisToQuat s.chiNorm (fun i => s.chi i / s.chiNorm)
      ∧ (∀ i, s.chiToQuat.chi i = 0)
      ∧ (∀ i : Fin 15, i.val < 6 ∨ 8 < i.val → s.chiToQuat.vec i = s.vec i)
      ∧ s.chiToQuat.utime = s.utime)
    ∧ (s.chiNorm ≤ 0.000001 → s.chiToQuat = s)
    ∧ s.chiToQuat.chiToQuat = s.chiToQuat := by
  refine ⟨fun h => ⟨?_, chiToQuat_chi_fold s h, chiToQuat_vec_outside s,
      chiToQuat_utime s⟩, chiToQuat_of_chiNorm_le s, ?_⟩
  · rw [chiToQuat, if_pos h]
  · by_cases h : s.chiNorm > 0.000001
    · exact chiToQuat_of_zero_chi _ (chiToQuat_chi_fold s h)
    · have hle : s.chiNorm ≤ 0.000001 := not_lt.mp h
      rw [chiToQuat_of_chiNorm_le s hle]
      exact chiToQuat_of_chiNorm_le s hle

/-- A state whose chi block is (0, 0, 2), used to exercise the folding
branch of `chiToQuat`. -/
def exChi : RigidBodyState :=
  { quat := 1, vec := fun i => if i.val = 8 then 2 else 0, utime := 0 }

/-- The chi norm of `exChi` is 2. -/
theorem exChi_chiNorm : exChi.chiNorm = 2 := by
  have h0 : exChi.chi 0 = 0 := rfl
  have h1 : exChi.chi 1 = 0 := rfl
  have h2 : exChi.chi 2 = 2 := rfl
  rw [chiNorm, h0, h1, h2,
    show (0 : ℝ) ^ 2 + 0 ^ 2 + 2 ^ 2 = 2 ^ 2 by norm_num,
    Real.sqrt_sq (by norm_num : (0 : ℝ) ≤ 2)]

/-- The chi norm of the default state is 0. -/
theorem mkDefault_chiNorm : mkDefault.chiNorm = 0 := by
  rw [chiNorm, show mkDefault.chi 0 = 0 from rfl,
    show mkDefault.chi 1 = 0 from rfl, show mkDefault.chi 2 = 0 from rfl]
  simp

/-- C3 witness: `chiToQuat_spec` applied on both sides of the tolerance,
at a state with chi norm 2 (folds, chi becomes zero) and at the default
state with chi norm 0 (left unchanged). -/
theorem chiToQuat_spec_witness :
    (exChi.chiNorm > 0.000001 ∧ exChi.chiToQuat.chi 0 = 0)
    ∧ (mkDefault.chiNorm ≤ 0.000001 ∧ mkDefault.chiToQuat = mkDefault) := by
  have h1 : exChi.chiNorm > 0.000001 := by rw [exChi_chiNorm]; norm_num
  have h2 : mkDefault.chiNorm ≤ 0.000001 := by rw [mkDefault_chiNorm]; norm_num
  exact ⟨⟨h1, ((chiToQuat_spec exChi).1 h1).2.1 0⟩,
         ⟨h2, (chiToQuat_spec mkDefault).2.1 h2⟩⟩

/-- A state with zero chi block whose orientation is the unit quaternion
k (a rotation by pi about the Z axis). -/
def stateK : RigidBodyState :=
  { quat := ⟨0, 0, 0, 1⟩, vec := fun _ => 0, utime := 0 }

/-- C5 counterexample: `quatToChi` is a public operation other than
`chiToQuat`, yet applied to `stateK` (whose chi block is zero) it leaves
a nonzero chi block: the third chi slot becomes pi. -/
theorem quatToChi_breaks_zero_chi :
    (∀ i, stateK.chi i = 0) ∧ stateK.quatToChi.chi 2 ≠ 0 := by
  have hat : atan2 1 0 = Real.pi / 2 := by
    simp only [atan2]
    norm_num
  have hrw : (1 : Quaternion ℝ)⁻¹ * stateK.quat = ⟨0, 0, 0, 1⟩ := by
    rw [inv_one, one_mul]
    rfl
  have hchi : stateK.quatToChi.chi 2 =
      subtractQuats stateK.quat 1 ⟨2, by omega⟩ := rfl
  have hpi : subtractQuats stateK.quat 1 ⟨2, by omega⟩ = Real.pi := by
    simp only [subtractQuats, hrw]
    norm_num [hat]
    ring
  refine ⟨fun _ => rfl, ?_⟩
  rw [hchi, hpi]
  exact Real.pi_ne_zero

/-- The all-zero pose record. -/
def zeroPose : RigidBodyPoseT :=
  { rotation_rate := fun _ => 0, vel := fun _ => 0, pos := fun _ => 0
    accel := fun _ => 0, orientation := fun _ => 0, utime := 0 }

/-- C5 amended: for every public operation other than `chiToQuat` and
`quatToChi` — `addState`, `subtractState`, the three value constructors
and the pose-record constructor — a zero chi block in every involved
state yields a zero chi block in the resulting state (the pose
constructor zeroes chi unconditionally).  `quatToChi` itself instead
stores the exponential coordinates of the orientation into chi, which is
nonzero for a non-identity orientation (see the counterexample). -/
theorem zeroChi_invariant (s t : RigidBodyState) (v : Fin 15 → ℝ)
    (q : Quaternion ℝ) (p : RigidBodyPoseT)
    (hs : ∀ i, s.chi i = 0) (ht : ∀ i, t.chi i = 0)
    (hv : ∀ i : Fin 3, v ⟨6 + i.val, by omega⟩ = 0) :
    (∀ i, (s.addState t).chi i = 0)
    ∧ (∀ i, (s.subtractState t).chi i = 0)
    ∧ (∀ i, mkDefault.chi i = 0)
    ∧ (∀ i, (fromVec v).chi i = 0)
    ∧ (∀ i, (fromVecQuat v q).chi i = 0)
    ∧ (∀ i, (fromPose p).chi i = 0) := by
  have hsum : ∀ i, (sumState s t).chi i = 0 := by
    intro i
    show s.vec ⟨6 + i.val, by omega⟩ + t.vec ⟨6 + i.val, by omega⟩ = 0
    rw [show s.vec ⟨6 + i.val, by omega⟩ = s.chi i from rfl,
        show t.vec ⟨6 + i.val, by omega⟩ = t.chi i from rfl, hs i, ht i,
        add_zero]
  refine ⟨?_, ?_, fun _ => rfl, ?_, fun i => hv i, ?_⟩
  · intro i
    show (chiToQuat (sumState s t)).chi i = 0
    rw [chiToQuat_of_zero_chi _ hsum]
    exact hsum i
  · intro i
    show s.chi i - t.chi i = 0
    rw [hs i, ht i, sub_zero]
  · intro i
    have hzv : ∀ j, ({ quat := 1, vec := v, utime := 0 } :
        RigidBodyState).chi j = 0 := fun j => hv j
    show (chiToQuat { quat := 1, vec := v, utime := 0 }).chi i = 0
    rw [chiToQuat_of_zero_chi _ hzv]
    exact hzv i
  · intro i
    fin_cases i <;> rfl

/-- C5 witness: the amended invariant applied to concrete zero-chi
states, a zero vector, the identity quaternion and the zero pose. -/
theorem zeroChi_invariant_witness :
    (mkDefault.addState mkDefault).chi 0 = 0 :=
  (zeroChi_invariant mkDefault mkDefault (fun _ => 0) 1 zeroPose
    (fun _ => rfl) (fun _ => rfl) (fun _ => rfl)).1 0

/-- A state with zero chi whose orientation is the unit quaternion i. -/
def stateI : RigidBodyState :=
  { quat := ⟨0, 1, 0, 0⟩, vec := fun _ => 0, utime := 0 }

/-- A state with zero chi whose orientation is the unit quaternion
(1 + i + j + k) / 2. -/
def stateH : RigidBodyState :=
  { quat := ⟨1/2, 1/2, 1/2, 1/2⟩, vec := fun _ => 0, utime := 0 }

/-- C4 counterexample: adding `stateH` to `stateI` and then subtracting
`stateH` again yields the orientation k = (0, 0, 0, 1), not the original
orientation i = (0, 1, 0, 0): the imI components differ by 1, far beyond
any numerical tolerance.  (Both states are unit quaternions with zero
chi; the state vectors are recovered, only the orientation is not.) -/
theorem addSubtract_counterexample :
    ((stateI.addState stateH).subtractState stateH).quat = ⟨0, 0, 0, 1⟩
    ∧ stateI.quat = ⟨0, 1, 0, 0⟩
    ∧ (⟨0, 0, 0, 1⟩ : Quaternion ℝ).imI ≠ (⟨0, 1, 0, 0⟩ : Quaternion ℝ).imI := by
  have hfold : chiToQuat (sumState stateI stateH) = sumState stateI stateH :=
    chiToQuat_of_zero_chi _ (fun _ => by show (0 : ℝ) + 0 = 0; norm_num)
  have hstep : ((stateI.addState stateH).subtractState stateH).quat =
      stateH.quat⁻¹ * ((chiToQuat (sumState stateI stateH)).quat *
        stateH.quat) := rfl
  have hinv : stateH.quat⁻¹ = ⟨1/2, -(1/2), -(1/2), -(1/2)⟩ := by
    refine inv_eq_of_mul_eq_one_right ?_
    apply Quaternion.ext <;>
      norm_num [Quaternion.mul_re, Quaternion.mul_imI, Quaternion.mul_imJ,
        Quaternion.mul_imK, stateH]
  refine ⟨?_, rfl, by norm_num⟩
  rw [hstep, hfold, hinv]
  apply Quaternion.ext <;>
    norm_num [Quaternion.mul_re, Quaternion.mul_imI, Quaternion.mul_imJ,
      Quaternion.mul_imK, sumState, stateI, stateH]

/-- C4 amended: when both states have zero chi blocks (the module's
stated invariant for settled states), `addState(b)` followed by
`subtractState(b)` recovers all 15 state-vector elements of `a` exactly
and leaves the timestamp unchanged, but the resulting orientation is the
conjugate `b.quat⁻¹ * (a.quat * b.quat)`; the original orientation is
recovered (exactly) when the two orientations commute, not in
general. -/
theorem addSubtract_roundtrip (a b : RigidBodyState)
    (ha : ∀ i, a.chi i = 0) (hb : ∀ i, b.chi i = 0) :
    (∀ i, ((a.addState b).subtractState b).vec i = a.vec i)
    ∧ ((a.addState b).subtractState b).quat = b.quat⁻¹ * (a.quat * b.quat)
    ∧ (b.quat ≠ 0 → a.quat * b.quat = b.quat * a.quat →
        ((a.addState b).subtractState b).quat = a.quat)
    ∧ ((a.addState b).subtractState b).utime = a.utime := by
  have hsum : ∀ i, (sumState a b).chi i = 0 := by
    intro i
    show a.vec ⟨6 + i.val, by omega⟩ + b.vec ⟨6 + i.val, by omega⟩ = 0
    rw [show a.vec ⟨6 + i.val, by omega⟩ = a.chi i from rfl,
        show b.vec ⟨6 + i.val, by omega⟩ = b.chi i from rfl, ha i, hb i,
        add_zero]
  have hfold := chiToQuat_of_zero_chi _ hsum
  have hquat : ((a.addState b).subtractState b).quat =
      b.quat⁻¹ * (a.quat * b.quat) := by
    show b.quat⁻¹ * ((chiToQuat (sumState a b)).quat * b.quat) = _
    rw [hfold]
    rfl
  refine ⟨?_, hquat, ?_, ?_⟩
  · intro i
    show (chiToQuat (sumState a b)).vec i - b.vec i = a.vec i
    rw [hfold]
    show a.vec i + b.vec i - b.vec i = a.vec i
    ring
  · intro hb0 hcomm
    rw [hquat, hcomm, ← mul_assoc, inv_mul_cancel₀ hb0, one_mul]
  · show (chiToQuat (sumState a b)).utime = a.utime
    rw [hfold]
    rfl

/-- C4 witness: the amended round-trip applied to two default states
(zero chi, identity orientations, which commute). -/
theorem addSubtract_roundtrip_witness :
    ((mkDefault.addState mkDefault).subtractState mkDefault).quat =
      mkDefault.quat :=
  (addSubtract_roundtrip mkDefault mkDefault (fun _ => rfl)
      (fun _ => rfl)).2.2.1
    (show (1 : Quaternion ℝ) ≠ 0 from one_ne_zero) rfl

/-- C7: exporting a state with `getPose` and constructing a new state
from the record reproduces velocity, angular velocity, position,
acceleration and the timestamp exactly, zeroes the chi block, and
reproduces the orientation exactly (the array conversion round-trip is
lossless). -/
theorem poseRoundtrip (s : RigidBodyState) :
    (∀ i, (fromPose (getPose s)).velocity i = s.velocity i)
    ∧ (∀ i, (fromPose (getPose s)).angularVelocity i = s.angularVelocity i)
    ∧ (∀ i, (fromPose (getPose s)).position i = s.position i)
    ∧ (∀ i, (fromPose (getPose s)).acceleration i = s.acceleration i)
    ∧ (∀ i, (fromPose (getPose s)).chi i = 0)
    ∧ (fromPose (getPose s)).quat = s.quat
    ∧ (fromPose (getPose s)).utime = s.utime := by
  refine ⟨?_, ?_, ?_, ?_, ?_, rfl, rfl⟩ <;> (intro i; fin_cases i <;> rfl)

/-- The scenario state of the spec: identity orientation, chi = (0, 0,
0.1), all other entries zero. -/
def exYaw : RigidBodyState :=
  { quat := 1, vec := fun i => if i.val = 8 then 0.1 else 0, utime := 0 }

/-- The chi norm of `exYaw` is 0.1. -/
theorem exYaw_chiNorm : exYaw.chiNorm = 0.1 := by
  rw [chiNorm, show exYaw.chi 0 = 0 from rfl, show exYaw.chi 1 = 0 from rfl,
    show exYaw.chi 2 = 0.1 from rfl,
    show (0 : ℝ) ^ 2 + 0 ^ 2 + 0.1 ^ 2 = 0.1 ^ 2 by norm_num,
    Real.sqrt_sq (by norm_num : (0 : ℝ) ≤ 0.1)]

/-- Folding `exYaw` yields the half-angle quaternion of a rotation by
0.1 radians about the Z axis. -/
theorem exYaw_quat : exYaw.chiToQuat.quat =
    ⟨Real.cos (0.1 / 2), 0, 0, Real.sin (0.1 / 2)⟩ := by
  have hpos : exYaw.chiNorm > 0.000001 := by rw [exYaw_chiNorm]; norm_num
  rw [chiToQuat, if_pos hpos]
  show exYaw.quat *
      angleAxisToQuat exYaw.chiNorm (fun i => exYaw.chi i / exYaw.chiNorm) = _
  rw [exYaw_chiNorm, show exYaw.quat = 1 from rfl, one_mul]
  apply Quaternion.ext
  · rfl
  · show Real.sin (0.1 / 2) * (exYaw.chi 0 / 0.1) = 0
    rw [show exYaw.chi 0 = (0 : ℝ) from rfl]
    norm_num
  · show Real.sin (0.1 / 2) * (exYaw.chi 1 / 0.1) = 0
    rw [show exYaw.chi 1 = (0 : ℝ) from rfl]
    norm_num
  · show Real.sin (0.1 / 2) * (exYaw.chi 2 / 0.1) = Real.sin (0.1 / 2)
    rw [show exYaw.chi 2 = (0.1 : ℝ) from rfl]
    norm_num

/-- The rotation matrix of the folded `exYaw` orientation is the plane
rotation by 0.1 radians about Z, and Eigen's (2, 1, 0) Euler extraction
of it yields (0.1, 0, 0): the Z (yaw) angle lands in component 0 and the
X (roll) angle in component 2. -/
theorem eulerAngles210_of_exYaw_quat :
    eulerAngles210 (toRotationMatrix
        ⟨Real.cos (0.1 / 2), 0, 0, Real.sin (0.1 / 2)⟩) 0 = 0.1
    ∧ eulerAngles210 (toRotationMatrix
        ⟨Real.cos (0.1 / 2), 0, 0, Real.sin (0.1 / 2)⟩) 1 = 0
    ∧ eulerAngles210 (toRotationMatrix
        ⟨Real.cos (0.1 / 2), 0, 0, Real.sin (0.1 / 2)⟩) 2 = 0 := by
  have h01 : (2 * (0.1 / 2) : ℝ) = 0.1 := by norm_num
  have hsin : 2 * Real.sin (0.1 / 2) * Real.cos (0.1 / 2) = Real.sin 0.1 := by
    rw [← Real.sin_two_mul, h01]
  have hcos : 1 - 2 * Real.sin (0.1 / 2) ^ 2 = Real.cos 0.1 := by
    have hc2 := Real.cos_two_mul (0.1 / 2 : ℝ)
    have hpyth := Real.sin_sq_add_cos_sq (0.1 / 2 : ℝ)
    rw [← h01, hc2]
    linarith
  have hR00 : toRotationMatrix
      ⟨Real.cos (0.1 / 2), 0, 0, Real.sin (0.1 / 2)⟩ 0 0 = Real.cos 0.1 := by
    show 1 - 2 * ((0 : ℝ) ^ 2 + Real.sin (0.1 / 2) ^ 2) = Real.cos 0.1
    rw [← hcos]
    ring
  have hR10 : toRotationMatrix
      ⟨Real.cos (0.1 / 2), 0, 0, Real.sin (0.1 / 2)⟩ 1 0 = Real.sin 0.1 := by
    show 2 * ((0 : ℝ) * 0 + Real.sin (0.1 / 2) * Real.cos (0.1 / 2)) =
      Real.sin 0.1
    rw [← hsin]
    ring
  have hR01 : toRotationMatrix
      ⟨Real.cos (0.1 / 2), 0, 0, Real.sin (0.1 / 2)⟩ 0 1 =
      -Real.sin 0.1 := by
    show 2 * ((0 : ℝ) * 0 - Real.sin (0.1 / 2) * Real.cos (0.1 / 2)) =
      -Real.sin 0.1
    rw [← hsin]
    ring
  have hR11 : toRotationMatrix
      ⟨Real.cos (0.1 / 2), 0, 0, Real.sin (0.1 / 2)⟩ 1 1 = Real.cos 0.1 := by
    show 1 - 2 * ((0 : ℝ) ^ 2 + Real.sin (0.1 / 2) ^ 2) = Real.cos 0.1
    rw [← hcos]
    ring
  have hR02 : toRotationMatrix
      ⟨Real.cos (0.1 / 2), 0, 0, Real.sin (0.1 / 2)⟩ 0 2 = 0 := by
    show 2 * ((0 : ℝ) * Real.sin (0.1 / 2) + 0 * Real.cos (0.1 / 2)) = 0
    ring
  have hR12 : toRotationMatrix
      ⟨Real.cos (0.1 / 2), 0, 0, Real.sin (0.1 / 2)⟩ 1 2 = 0 := by
    show 2 * ((0 : ℝ) * Real.sin (0.1 / 2) - 0 * Real.cos (0.1 / 2)) = 0
    ring
  have hR20 : toRotationMatrix
      ⟨Real.cos (0.1 / 2), 0, 0, Real.sin (0.1 / 2)⟩ 2 0 = 0 := by
    show 2 * ((0 : ℝ) * Real.sin (0.1 / 2) - 0 * Real.cos (0.1 / 2)) = 0
    ring
  have hR21 : toRotationMatrix
      ⟨Real.cos (0.1 / 2), 0, 0, Real.sin (0.1 / 2)⟩ 2 1 = 0 := by
    show 2 * ((0 : ℝ) * Real.sin (0.1 / 2) + 0 * Real.cos (0.1 / 2)) = 0
    ring
  have hR22 : toRotationMatrix
      ⟨Real.cos (0.1 / 2), 0, 0, Real.sin (0.1 / 2)⟩ 2 2 = 1 := by
    show 1 - 2 * ((0 : ℝ) ^ 2 + 0 ^ 2) = 1
    norm_num
  have hcpos : 0 < Real.cos 0.1 := by
    refine Real.cos_pos_of_mem_Ioo ⟨?_, ?_⟩ <;>
      [linarith [Real.pi_gt_three]; linarith [Real.pi_gt_three]]
  have hatan_sc : atan2 (Real.sin 0.1) (Real.cos 0.1) = 0.1 := by
    simp only [atan2]
    rw [if_pos hcpos, ← Real.tan_eq_sin_div_cos,
      Real.arctan_tan (by linarith [Real.pi_gt_three])
        (by linarith [Real.pi_gt_three])]
  have hatan01 : atan2 0 1 = 0 := by
    simp only [atan2]
    norm_num [Real.arctan_zero]
  have hea0 : ea0 (toRotationMatrix
      ⟨Real.cos (0.1 / 2), 0, 0, Real.sin (0.1 / 2)⟩) = 0.1 := by
    simp only [ea0]
    rw [hR10, hR00, hatan_sc, if_neg (by norm_num : ¬((0.1 : ℝ) < 0))]
  have hea1 : ea1 (toRotationMatrix
      ⟨Real.cos (0.1 / 2), 0, 0, Real.sin (0.1 / 2)⟩) = 0 := by
    simp only [ea1]
    rw [hR10, hR00, hatan_sc, hR20, hR22, hR21,
      if_neg (by norm_num : ¬((0.1 : ℝ) < 0)),
      show (1 : ℝ) ^ 2 + 0 ^ 2 = 1 by norm_num, Real.sqrt_one,
      show -(0 : ℝ) = 0 by norm_num, hatan01]
  have hea2 : ea2 (toRotationMatrix
      ⟨Real.cos (0.1 / 2), 0, 0, Real.sin (0.1 / 2)⟩) = 0 := by
    simp only [ea2]
    rw [hea0, hR02, hR12, hR11, hR01,
      show Real.sin 0.1 * 0 - Real.cos 0.1 * 0 = (0 : ℝ) by ring,
      show Real.cos 0.1 * Real.cos 0.1 - Real.sin 0.1 * -Real.sin 0.1 =
        Real.sin 0.1 ^ 2 + Real.cos 0.1 ^ 2 by ring,
      Real.sin_sq_add_cos_sq, hatan01]
  exact ⟨hea0, hea1, hea2⟩

/-- C6: evaluation of `getEulerAngles` at the scenario input.  After
folding chi = (0, 0, 0.1) into the identity orientation, the code
returns the Euler triple (0.1, 0, 0): the 0.1 yaw angle is in component
0 and component 2 is 0, so the yaw value promised by the claimed (roll,
pitch, yaw) component order would be off by 0.1, far beyond the 1e-6
tolerance (the angle values roll = 0, pitch = 0, yaw = 0.1 themselves
are exact). -/
theorem eulerAngles_order_eval :
    exYaw.chiToQuat.getEulerAngles 0 = 0.1
    ∧ exYaw.chiToQuat.getEulerAngles 1 = 0
    ∧ exYaw.chiToQuat.getEulerAngles 2 = 0
    ∧ |exYaw.chiToQuat.getEulerAngles 2 - 0.1| > 0.000001 := by
  have hkey : ∀ i : Fin 3, exYaw.chiToQuat.getEulerAngles i =
      eulerAngles210 (toRotationMatrix
        ⟨Real.cos (0.1 / 2), 0, 0, Real.sin (0.1 / 2)⟩) i := by
    intro i
    show eulerAngles210 (toRotationMatrix exYaw.chiToQuat.quat) i = _
    rw [exYaw_quat]
  obtain ⟨h0, h1, h2⟩ := eulerAngles210_of_exYaw_quat
  refine ⟨?_, ?_, ?_, ?_⟩
  · rw [hkey 0, h0]
  · rw [hkey 1, h1]
  · rw [hkey 2, h2]
  · rw [hkey 2, h2]
    rw [show (0 : ℝ) - 0.1 = -(0.1) by norm_num, abs_neg,
      abs_of_pos (by norm_num : (0 : ℝ) < 0.1)]
    norm_num

end

end EigenUtils
